import Mathlib

/-
Verification development for the breez-sdk-spark wallet engine as exposed by
the generated binding header
src/packages/flutter/breez_sdk_spark/macos/Classes/frb_generated.h.
The header carries only struct layouts and entry-point prototypes; the engine
behind them is modelled here from the specification (spec.md), with data
shapes taken from the wire structs in the header.
-/

namespace BreezSdkSpark

/-- Status of a Payment record, from the spec data model:
status is one of pending, complete, failed. -/
inductive PaymentStatus
  | pending
  | complete
  | failed
  deriving DecidableEq, Repr

/-- Direction of a Payment, from the spec data model: send or receive. -/
inductive PaymentType
  | send
  | receive
  deriving DecidableEq, Repr

/-- Method of a Payment, from the spec data model:
lightning, onchain or lnurl. The wire struct carries it as an int32 tag. -/
inductive PaymentMethod
  | lightning
  | onchain
  | lnurl
  deriving DecidableEq, Repr

/-- Payment record, mirroring wire_cst_payment in the header
(id, payment_type, status, amount, fees, timestamp, method); the opaque
details pointer is omitted. Amounts are in sats. -/
structure Payment where
  id : String
  payment_type : PaymentType
  status : PaymentStatus
  amount : Nat
  fees : Nat
  timestamp : Nat
  method : PaymentMethod
  deriving DecidableEq, Repr

/-- Deposit record, mirroring wire_cst_deposit_info in the header
(txid, vout, amount_sats, refund_tx, refund_tx_id, claim_error). -/
structure DepositInfo where
  txid : String
  vout : Nat
  amount_sats : Nat
  refund_tx : Option String
  refund_tx_id : Option String
  claim_error : Option String
  deriving DecidableEq, Repr

/-- Fee abstraction behind the opaque Fee handle of the header: either a
fixed absolute amount in sats or a rate in sat per vbyte. -/
inductive Fee
  | fixed (amount : Nat)
  | rate (sat_per_vbyte : Nat)
  deriving DecidableEq, Repr

/-- Modelled from the spec: Fee.to_sats converts the fee abstraction into
absolute sats for a given transaction virtual size, using integer arithmetic
only and rounding up; with an integer sat-per-vbyte rate the product is exact,
so it already equals the ceiling of the real-valued product. -/
def Fee.to_sats (f : Fee) (vbytes : Nat) : Nat :=
  match f with
  | .fixed amount => amount
  | .rate sat_per_vbyte => sat_per_vbyte * vbytes

/-- Session configuration, mirroring wire_cst_config in the header
(api_key, network tag, sync_interval_secs, optional max_deposit_claim_fee). -/
structure Config where
  api_key : Option String
  network : Int
  sync_interval_secs : Nat
  max_deposit_claim_fee : Option Fee
  deriving Repr

/-- Storage-level errors, from the spec error taxonomy:
not-found, constraint-violation, io-failure. -/
inductive StorageError
  | notFound
  | constraintViolation
  | ioFailure
  deriving DecidableEq, Repr

/-- Public-surface errors, from the spec error taxonomy; depositNotFound and
depositAlreadyRefunded refine the validation failures of claim_deposit
(deposit must exist and still be unclaimed), amountOutOfBounds is the
LNURL-pay amount-bounds error, commentTooLong the comment-length error. -/
inductive SdkError
  | storage (e : StorageError)
  | depositNotFound
  | depositAlreadyRefunded
  | feeTooHigh
  | amountOutOfBounds
  | commentTooLong
  | invalidInput
  deriving DecidableEq, Repr

/-- Logical state of the single SQLite-backed storage: payments, deposits and
the generic key-value cache (the three tables of the spec storage contract). -/
structure StorageState where
  payments : List Payment
  deposits : List DepositInfo
  cache : List (String × String)
  deriving DecidableEq, Repr

/-- Empty storage, the state right after SqliteStorage_new on a fresh path. -/
def initialStorage : StorageState :=
  { payments := [], deposits := [], cache := [] }

/-- Modelled from the spec: set_cached_item overwrites the value stored under
the key (missing SqliteStorage implementation). -/
def set_cached_item (s : StorageState) (key value : String) : StorageState :=
  { s with cache := (key, value) :: s.cache.filter (fun kv => !(kv.1 == key)) }

/-- Modelled from the spec: get_cached_item looks a key up in the cache and
reports a not-found StorageError on an unset key (missing SqliteStorage
implementation). -/
def get_cached_item (s : StorageState) (key : String) : Except StorageError String :=
  match s.cache.lookup key with
  | some v => .ok v
  | none => .error .notFound

/-- Modelled from the spec: add_deposit inserts a new deposit record and
fails with a constraint-violation StorageError when an active record with the
same (txid, vout) key already exists (missing SqliteStorage implementation). -/
def add_deposit (s : StorageState) (txid : String) (vout : Nat)
    (amount_sats : Nat) : Except StorageError StorageState :=
  if s.deposits.any (fun d => d.txid == txid && d.vout == vout) then
    .error .constraintViolation
  else
    .ok { s with deposits :=
      { txid := txid, vout := vout, amount_sats := amount_sats,
        refund_tx := none, refund_tx_id := none, claim_error := none } :: s.deposits }

/-- Modelled from the spec: delete_deposit removes the record keyed by
(txid, vout) (missing SqliteStorage implementation). -/
def delete_deposit (s : StorageState) (txid : String) (vout : Nat) : StorageState :=
  { s with deposits := s.deposits.filter (fun d => !(d.txid == txid && d.vout == vout)) }

/-- Payload of update_deposit: the opaque pointer of the header carries either
a recorded claim failure or the refund transaction data, per the spec deposit
life cycle. -/
inductive UpdateDepositPayload
  | claimFailure (message : String)
  | refund (refund_tx : String) (refund_tx_id : String)
  deriving DecidableEq, Repr

/-- Application of an update payload to one deposit record; the (txid, vout)
key is never changed. -/
def applyPayload (d : DepositInfo) (payload : UpdateDepositPayload) : DepositInfo :=
  match payload with
  | .claimFailure m => { d with claim_error := some m }
  | .refund tx txId => { d with refund_tx := some tx, refund_tx_id := some txId }

/-- Modelled from the spec: update_deposit rewrites the record keyed by
(txid, vout) with the payload (missing SqliteStorage implementation). -/
def update_deposit (s : StorageState) (txid : String) (vout : Nat)
    (payload : UpdateDepositPayload) : StorageState :=
  { s with deposits := s.deposits.map (fun d =>
      if d.txid == txid && d.vout == vout then applyPayload d payload else d) }

/-- Modelled from the spec: insert_payment records a new payment
(missing SqliteStorage implementation). -/
def insert_payment (s : StorageState) (p : Payment) : StorageState :=
  { s with payments := p :: s.payments }

/-- Modelled from the spec: get_payment_by_id returns the stored payment with
the given id, or a not-found StorageError (missing SqliteStorage
implementation). -/
def get_payment_by_id (s : StorageState) (id : String) : Except StorageError Payment :=
  match s.payments.find? (fun p => p.id == id) with
  | some p => .ok p
  | none => .error .notFound

/-- Ordering used by list_payments: timestamp descending. -/
def paymentLe (a b : Payment) : Bool :=
  decide (b.timestamp ≤ a.timestamp)

/-- Stored payments in the single stable timestamp-descending order the spec
requires of list_payments (merge sort is stable). -/
def sortedPayments (s : StorageState) : List Payment :=
  s.payments.mergeSort paymentLe

/-- Modelled from the spec: list_payments returns the timestamp-descending
listing, paginated by the optional offset and limit of
wire_cst_list_payments_request (missing SqliteStorage implementation). -/
def list_payments (s : StorageState) (offset limit : Option Nat) : List Payment :=
  ((sortedPayments s).drop (offset.getD 0)).take (limit.getD (sortedPayments s).length)

/-- Claim request, mirroring wire_cst_claim_deposit_request in the header
(txid, vout, optional max_fee behind an opaque pointer). -/
structure ClaimDepositRequest where
  txid : String
  vout : Nat
  max_fee : Option Fee
  deriving Repr

/-- Fee ceiling actually enforced by claim_deposit: the request max_fee when
supplied, otherwise the configured max_deposit_claim_fee. -/
def effectiveMaxFee (cfg : Config) (req : ClaimDepositRequest) : Option Fee :=
  match req.max_fee with
  | some f => some f
  | none => cfg.max_deposit_claim_fee

/-- Id of the Payment produced by claiming a deposit; the spec requires a
claim Payment to be identifiable by its (txid, vout) reference so that a
retry after a crash is detected rather than duplicated. -/
def claimPaymentId (txid : String) (vout : Nat) : String :=
  txid ++ ":" ++ toString vout

/-- Successful tail of claim_deposit: insert the completed Payment (amount is
the deposit amount minus the actual claim fee), then delete the deposit
record, per the spec insert-then-delete ordering. -/
def claimSuccess (s : StorageState) (req : ClaimDepositRequest) (d : DepositInfo)
    (required_fee : Nat) (now : Nat) : StorageState × Payment :=
  let p : Payment :=
    { id := claimPaymentId req.txid req.vout, payment_type := .receive,
      status := .complete, amount := d.amount_sats - required_fee,
      fees := required_fee, timestamp := now, method := .onchain }
  (delete_deposit (insert_payment s p) req.txid req.vout, p)

/-- Modelled from the spec: claim_deposit (missing BreezSdk implementation)
validates that the deposit exists and is still unclaimed (no refund recorded),
enforces the max_fee ceiling against the required claim fee — failing with
FeeTooHigh when the required fee exceeds the request max_fee, or the
configured max_deposit_claim_fee when the request leaves it unspecified —
then inserts a completed Payment and deletes the deposit record. The required
fee in sats and the claim transaction virtual size are chain-determined
inputs, passed explicitly here; now is the record timestamp. -/
def claim_deposit (cfg : Config) (s : StorageState) (req : ClaimDepositRequest)
    (required_fee : Nat) (claim_tx_vbytes : Nat) (now : Nat) :
    Except SdkError (StorageState × Payment) :=
  match s.deposits.find? (fun d => d.txid == req.txid && d.vout == req.vout) with
  | none => .error .depositNotFound
  | some d =>
    if d.refund_tx_id.isSome then
      .error .depositAlreadyRefunded
    else
      match effectiveMaxFee cfg req with
      | some ceiling =>
        if ceiling.to_sats claim_tx_vbytes < required_fee then
          .error .feeTooHigh
        else
          .ok (claimSuccess s req d required_fee now)
      | none => .ok (claimSuccess s req d required_fee now)

/-- Modelled from the spec: list_unclaimed_deposits returns the deposits
observed on-chain and not yet swept into wallet balance, i.e. every stored
deposit record (claimed deposits are deleted; refund-pending ones remain
until the refund confirms). -/
def list_unclaimed_deposits (s : StorageState) : List DepositInfo :=
  s.deposits

/-- Refund response, mirroring wire_cst_refund_deposit_response in the header
(tx_id, tx_hex). -/
structure RefundDepositResponse where
  tx_id : String
  tx_hex : String
  deriving DecidableEq, Repr

/-- Modelled from the spec: refund_deposit (missing BreezSdk implementation)
sends the deposit value minus the fee to the destination address; it keeps
the deposit record, immediately recording refund_tx and refund_tx_id on it so
a retry does not double-spend — a deposit that already carries a recorded
refund returns that recorded transaction instead of building a new one. The
built transaction hex and id are chain-determined inputs, passed explicitly. -/
def refund_deposit (s : StorageState) (txid : String) (vout : Nat)
    (destination_address : String) (fee : Fee) (tx_hex tx_id : String) :
    Except SdkError (StorageState × RefundDepositResponse) :=
  match s.deposits.find? (fun d => d.txid == txid && d.vout == vout) with
  | none => .error .depositNotFound
  | some d =>
    match d.refund_tx, d.refund_tx_id with
    | some recordedHex, some recordedId =>
      .ok (s, { tx_id := recordedId, tx_hex := recordedHex })
    | _, _ =>
      .ok (update_deposit s txid vout (.refund tx_hex tx_id),
        { tx_id := tx_id, tx_hex := tx_hex })

/-- Prepared send, behind the opaque PrepareSendPaymentResponse accessors of
the header; payment_id is the identity of the payment the prepared request
resolves to (the invoice payment hash), by which the spec requires a retried
send_payment to find the already-created record. -/
structure PrepareSendPaymentResponse where
  payment_id : String
  amount_sats : Nat
  fee_sats : Nat
  deriving DecidableEq, Repr

/-- Modelled from the spec: send_payment (missing BreezSdk implementation)
creates a Payment record in pending state before any network call; retried
against the same prepare response while a record for it already exists, it
returns that record instead of creating a second one (at most one execution
per prepare response). -/
def send_payment (s : StorageState) (pr : PrepareSendPaymentResponse)
    (now : Nat) : StorageState × Payment :=
  match s.payments.find? (fun p => p.id == pr.payment_id) with
  | some p => (s, p)
  | none =>
    let p : Payment :=
      { id := pr.payment_id, payment_type := .send, status := .pending,
        amount := pr.amount_sats, fees := pr.fee_sats, timestamp := now,
        method := .lightning }
    (insert_payment s p, p)

/-- LNURL-pay request details, mirroring wire_cst_lnurl_pay_request_details
in the header (callback, min_sendable, max_sendable, metadata_str,
comment_allowed, domain, url, address, allows_nostr, nostr_pubkey). -/
structure LnurlPayRequestDetails where
  callback : String
  min_sendable : Nat
  max_sendable : Nat
  metadata_str : String
  comment_allowed : Nat
  domain : String
  url : String
  address : Option String
  allows_nostr : Bool
  nostr_pubkey : Option String
  deriving DecidableEq, Repr

/-- Prepare-LNURL-pay request, mirroring wire_cst_prepare_lnurl_pay_request
in the header (amount_sats, pay_request, optional comment, optional
validate_success_action_url). -/
structure PrepareLnurlPayRequest where
  amount_sats : Nat
  pay_request : LnurlPayRequestDetails
  comment : Option String
  validate_success_action_url : Option Bool
  deriving DecidableEq, Repr

/-- Prepare-LNURL-pay response, mirroring wire_cst_prepare_lnurl_pay_response
in the header; the resolved invoice details and success action are opaque in
the header and omitted here. -/
structure PrepareLnurlPayResponse where
  amount_sats : Nat
  comment : Option String
  pay_request : LnurlPayRequestDetails
  fee_sats : Nat
  deriving DecidableEq, Repr

/-- Modelled from the spec: prepare_lnurl_pay (missing BreezSdk
implementation) validates the requested amount against the pay request
bounds min_sendable..max_sendable, failing with the amount-bounds error
outside them, and validates the optional comment length against
comment_allowed; on success it resolves the callback (a network step whose
fee estimate is passed explicitly here) into a prepared response. -/
def prepare_lnurl_pay (req : PrepareLnurlPayRequest) (fee_sats : Nat) :
    Except SdkError PrepareLnurlPayResponse :=
  if req.amount_sats < req.pay_request.min_sendable ∨
      req.pay_request.max_sendable < req.amount_sats then
    .error .amountOutOfBounds
  else
    match req.comment with
    | some c =>
      if req.pay_request.comment_allowed < c.length then
        .error .commentTooLong
      else
        .ok { amount_sats := req.amount_sats, comment := req.comment,
              pay_request := req.pay_request, fee_sats := fee_sats }
    | none =>
      .ok { amount_sats := req.amount_sats, comment := req.comment,
            pay_request := req.pay_request, fee_sats := fee_sats }

/-- Onchain speed fee quote, mirroring wire_cst_send_onchain_speed_fee_quote
in the header: two u64 fields, user_fee_sat and l1_broadcast_fee_sat, each a
value below 2 to the 64. -/
structure SendOnchainSpeedFeeQuote where
  user_fee_sat : Nat
  l1_broadcast_fee_sat : Nat
  deriving DecidableEq, Repr

/-- Modelled from the spec symbol send_onchain_speed_fee_quote_total_fee_sat:
the total fee of a quote is the u64 sum of its user fee and its L1 broadcast
fee, wrapping modulo 2 to the 64 as Rust release-mode u64 addition does. -/
def total_fee_sat (q : SendOnchainSpeedFeeQuote) : Nat :=
  (q.user_fee_sat + q.l1_broadcast_fee_sat) % (2 ^ 64)

/-- One storage mutation, covering the write surface of the storage contract
that touches persistent state. -/
inductive StorageOp
  | addDeposit (txid : String) (vout : Nat) (amount_sats : Nat)
  | deleteDeposit (txid : String) (vout : Nat)
  | updateDeposit (txid : String) (vout : Nat) (payload : UpdateDepositPayload)
  | insertPayment (p : Payment)
  | setCachedItem (key value : String)

/-- Effect of one storage mutation on the storage state; a rejected
add_deposit (duplicate key) leaves the state unchanged. -/
def applyOp (s : StorageState) (op : StorageOp) : StorageState :=
  match op with
  | .addDeposit t v a =>
    match add_deposit s t v a with
    | .ok s2 => s2
    | .error _ => s
  | .deleteDeposit t v => delete_deposit s t v
  | .updateDeposit t v payload => update_deposit s t v payload
  | .insertPayment p => insert_payment s p
  | .setCachedItem k v => set_cached_item s k v

/-- State reached from empty storage by a sequence of mutations. -/
def applyOps (s : StorageState) (ops : List StorageOp) : StorageState :=
  ops.foldl applyOp s

/-- Keys of the active deposit records, in store order. -/
def depositKeys (s : StorageState) : List (String × Nat) :=
  s.deposits.map (fun d => (d.txid, d.vout))

/-- Cache states reached by set_cached_item alone, used to speak about keys
on which no set was ever performed. -/
def applyCacheSets (s : StorageState) (sets : List (String × String)) : StorageState :=
  sets.foldl (fun acc kv => set_cached_item acc kv.1 kv.2) s

/-- Sample unclaimed deposit used to exercise the operations on concrete data. -/
def sampleDeposit : DepositInfo :=
  { txid := "a1b2", vout := 0, amount_sats := 1000,
    refund_tx := none, refund_tx_id := none, claim_error := none }

/-- Storage holding exactly the sample deposit. -/
def sampleStorage : StorageState :=
  { payments := [], deposits := [sampleDeposit], cache := [] }

/-- Sample session configuration with a configured deposit-claim fee cap. -/
def sampleConfig : Config :=
  { api_key := none, network := 0, sync_interval_secs := 60,
    max_deposit_claim_fee := some (Fee.fixed 50) }

/-- Claim request for the sample deposit carrying its own max fee. -/
def sampleClaimRequest : ClaimDepositRequest :=
  { txid := "a1b2", vout := 0, max_fee := some (Fee.fixed 50) }

/-- Payment produced by claiming the sample deposit at fee 10 and time 5. -/
def sampleClaimedPayment : Payment :=
  { id := "a1b2:0", payment_type := .receive, status := .complete,
    amount := 990, fees := 10, timestamp := 5, method := .onchain }

/-- Storage after claiming the sample deposit at fee 10 and time 5. -/
def sampleClaimedStorage : StorageState :=
  { payments := [sampleClaimedPayment], deposits := [], cache := [] }

/-- Storage after recording a refund on the sample deposit. -/
def refundedSampleStorage : StorageState :=
  update_deposit sampleStorage "a1b2" 0 (.refund "rawhex" "rtxid")

/-- Sample prepared send response. -/
def samplePrepare : PrepareSendPaymentResponse :=
  { payment_id := "hash1", amount_sats := 250, fee_sats := 2 }

/-- Sample payment stamped with a given timestamp, for pagination data. -/
def stampedPayment (n : Nat) : Payment :=
  { id := toString n, payment_type := .send, status := .complete,
    amount := n, fees := 1, timestamp := n, method := .lightning }

/-- Storage holding three distinct sample payments. -/
def samplePaymentsStorage : StorageState :=
  { payments := [stampedPayment 1, stampedPayment 2, stampedPayment 3],
    deposits := [], cache := [] }

/-- Sample LNURL pay request details with sendable bounds 1000..100000. -/
def sampleLnurlDetails : LnurlPayRequestDetails :=
  { callback := "https://pay.example/cb", min_sendable := 1000,
    max_sendable := 100000, metadata_str := "", comment_allowed := 0,
    domain := "pay.example", url := "https://pay.example",
    address := none, allows_nostr := false, nostr_pubkey := none }

/-- LNURL prepare request for a given amount over the sample details. -/
def sampleLnurlRequest (amount_sats : Nat) : PrepareLnurlPayRequest :=
  { amount_sats := amount_sats, pay_request := sampleLnurlDetails,
    comment := none, validate_success_action_url := none }

/-- C3: Fee.to_sats computes the absolute fee in sats with integer arithmetic
only (its value is the natural-number ceiling of the rational fee-rate times
virtual-size product, so no rounding drift and never rounded down), and at a
rate of 2 sat per vbyte a 150-vbyte transaction costs exactly 300 sats. -/
theorem fee_to_sats_integer_ceiling :
    (Fee.rate 2).to_sats 150 = 300 ∧
    ∀ r vbytes : Nat,
      (Fee.rate r).to_sats vbytes = Nat.ceil ((r : ℚ) * (vbytes : ℚ)) := by
  refine ⟨rfl, ?_⟩
  intro r vbytes
  show r * vbytes = Nat.ceil ((r : ℚ) * (vbytes : ℚ))
  rw [← Nat.cast_mul, Nat.ceil_natCast]

/-- C10: total_fee_sat of a SendOnchainSpeedFeeQuote is the sum of its
user_fee_sat and l1_broadcast_fee_sat fields as 64-bit unsigned integers,
wrapping modulo 2 to the 64: in ZMod (2 ^ 64) it equals the sum of the two
fields, and the result always fits in 64 bits. -/
theorem total_fee_sat_wrapping_sum (q : SendOnchainSpeedFeeQuote) :
    ((total_fee_sat q : ZMod (2 ^ 64)) =
      (q.user_fee_sat : ZMod (2 ^ 64)) + (q.l1_broadcast_fee_sat : ZMod (2 ^ 64))) ∧
    total_fee_sat q < 2 ^ 64 := by
  constructor
  · show (((q.user_fee_sat + q.l1_broadcast_fee_sat) % (2 ^ 64) : Nat) : ZMod (2 ^ 64)) = _
    rw [ZMod.natCast_mod, Nat.cast_add]
  · exact Nat.mod_lt _ (by norm_num)

/-- Lookup of a key is unchanged by filtering out the entries of a different
key, the shape set_cached_item leaves the cache in. -/
theorem lookup_filter_ne (l : List (String × String)) (k k1 : String)
    (h : ¬ k = k1) :
    (l.filter (fun kv => !(kv.1 == k1))).lookup k = l.lookup k := by
  induction l with
  | nil => rfl
  | cons a t ih =>
    obtain ⟨ak, av⟩ := a
    rw [List.filter_cons]
    by_cases ha : ak = k1
    · have hk1 : (k == k1) = false := by simp [h]
      simp [ha, List.lookup_cons, hk1, ih]
    · have hcond : (!((ak, av).1 == k1)) = true := by simp [ha]
      rw [hcond, if_pos rfl]
      rw [List.lookup_cons, List.lookup_cons]
      cases hk : k == ak
      · exact ih
      · rfl

/-- Setting one key leaves lookups of every other key unchanged. -/
theorem get_cached_item_set_ne (s : StorageState) (k k1 v : String)
    (h : ¬ k = k1) :
    get_cached_item (set_cached_item s k1 v) k = get_cached_item s k := by
  unfold get_cached_item set_cached_item
  have hk : (k == k1) = false := by simp [h]
  simp only [List.lookup_cons, hk]
  rw [lookup_filter_ne s.cache k k1 h]

/-- A run of set_cached_item calls that never touches a key leaves that key's
lookup unchanged. -/
theorem applyCacheSets_unset (sets : List (String × String)) (s : StorageState)
    (k : String) (h : ∀ kv ∈ sets, ¬ kv.1 = k) :
    get_cached_item (applyCacheSets s sets) k = get_cached_item s k := by
  induction sets generalizing s with
  | nil => rfl
  | cons kv rest ih =>
    have hne : ¬ k = kv.1 := fun he => h kv (List.mem_cons_self kv rest) he.symm
    exact (ih (set_cached_item s kv.1 kv.2)
        (fun x hx => h x (List.mem_cons_of_mem kv hx))).trans
      (get_cached_item_set_ne s k kv.1 kv.2 hne)

/-- C4: set_cached_item followed by get_cached_item on the same key returns
exactly the value written, and get_cached_item on a key on which no
set_cached_item was ever performed reports the not-found StorageError rather
than any default value. -/
theorem cached_item_roundtrip :
    (∀ s k v, get_cached_item (set_cached_item s k v) k = .ok v) ∧
    (∀ sets k, (∀ kv ∈ sets, ¬ kv.1 = k) →
      get_cached_item (applyCacheSets initialStorage sets) k = .error .notFound) := by
  constructor
  · intro s k v
    unfold get_cached_item set_cached_item
    simp [List.lookup_cons]
  · intro sets k h
    rw [applyCacheSets_unset sets initialStorage k h]
    rfl

/-- Witness for C4 at concrete inputs: a round-trip on the key rate, and a
not-found on the key rate after setting only the key other. -/
theorem cached_item_roundtrip_w :
    get_cached_item (set_cached_item initialStorage "rate" "42") "rate" =
      .ok "42" ∧
    get_cached_item (applyCacheSets initialStorage [("other", "1")]) "rate" =
      .error .notFound :=
  ⟨cached_item_roundtrip.1 initialStorage "rate" "42",
   cached_item_roundtrip.2 [("other", "1")] "rate" (by decide)⟩

/-- C5: prepare_lnurl_pay with no comment succeeds exactly when the requested
amount_sats lies within min_sendable..max_sendable of the pay request, and
fails with the amount-bounds error otherwise. -/
theorem prepare_lnurl_pay_amount_bounds (req : PrepareLnurlPayRequest)
    (fee_sats : Nat) (hc : req.comment = none) :
    ((∃ resp, prepare_lnurl_pay req fee_sats = .ok resp) ↔
      req.pay_request.min_sendable ≤ req.amount_sats ∧
        req.amount_sats ≤ req.pay_request.max_sendable) ∧
    (¬ (req.pay_request.min_sendable ≤ req.amount_sats ∧
        req.amount_sats ≤ req.pay_request.max_sendable) →
      prepare_lnurl_pay req fee_sats = .error .amountOutOfBounds) := by
  have hunf : prepare_lnurl_pay req fee_sats =
      if req.amount_sats < req.pay_request.min_sendable ∨
          req.pay_request.max_sendable < req.amount_sats then
        .error .amountOutOfBounds
      else
        .ok { amount_sats := req.amount_sats, comment := req.comment,
              pay_request := req.pay_request, fee_sats := fee_sats } := by
    unfold prepare_lnurl_pay
    rw [hc]
  constructor
  · constructor
    · rintro ⟨resp, hr⟩
      rw [hunf] at hr
      by_cases hb : req.amount_sats < req.pay_request.min_sendable ∨
          req.pay_request.max_sendable < req.amount_sats
      · rw [if_pos hb] at hr
        exact absurd hr (by simp)
      · omega
    · intro hb
      refine ⟨{ amount_sats := req.amount_sats, comment := req.comment,
                pay_request := req.pay_request, fee_sats := fee_sats }, ?_⟩
      rw [hunf, if_neg (by omega)]
  · intro hb
    rw [hunf, if_pos (by omega)]

/-- Witness for C5 at the spec example: amount 5000 within bounds 1000 to
100000 succeeds, amount 500 fails with the amount-bounds error. -/
theorem prepare_lnurl_pay_amount_bounds_w :
    (∃ resp, prepare_lnurl_pay (sampleLnurlRequest 5000) 1 = .ok resp) ∧
    prepare_lnurl_pay (sampleLnurlRequest 500) 1 = .error .amountOutOfBounds :=
  ⟨(prepare_lnurl_pay_amount_bounds (sampleLnurlRequest 5000) 1 rfl).1.mpr
      (by decide),
   (prepare_lnurl_pay_amount_bounds (sampleLnurlRequest 500) 1 rfl).2
      (by decide)⟩

/-- Finding an existing Payment record for a prepare response makes
send_payment return it with the state unchanged. -/
theorem send_payment_of_find_some {s : StorageState}
    {pr : PrepareSendPaymentResponse} {q : Payment} (now : Nat)
    (h : s.payments.find? (fun p => p.id == pr.payment_id) = some q) :
    send_payment s pr now = (s, q) := by
  unfold send_payment
  rw [h]

/-- After any send_payment call, the state holds a record found under the
prepare response's payment id, namely the returned Payment. -/
theorem sendPayment_find_result (s : StorageState)
    (pr : PrepareSendPaymentResponse) (now : Nat) :
    (send_payment s pr now).1.payments.find? (fun p => p.id == pr.payment_id) =
      some (send_payment s pr now).2 := by
  unfold send_payment
  cases hf : s.payments.find? (fun p => p.id == pr.payment_id) with
  | some p => simp only [hf]
  | none =>
    simp only [hf, insert_payment]
    exact List.find?_cons_of_pos _ (by simp)

/-- C2: retrying send_payment with the same prepare response while the first
resulting Payment record is still the only one for it changes nothing — the
second call returns the same state and the same Payment — and at most one
Payment record for the prepare response exists after the call. -/
theorem send_payment_retry_idempotent (s : StorageState)
    (pr : PrepareSendPaymentResponse) (now1 now2 : Nat)
    (hcount : s.payments.countP (fun p => p.id == pr.payment_id) ≤ 1) :
    send_payment (send_payment s pr now1).1 pr now2 = send_payment s pr now1 ∧
    (send_payment s pr now1).1.payments.countP
      (fun p => p.id == pr.payment_id) ≤ 1 := by
  constructor
  · rw [send_payment_of_find_some now2 (sendPayment_find_result s pr now1)]
  · unfold send_payment
    cases hf : s.payments.find? (fun p => p.id == pr.payment_id) with
    | some p =>
      simp only [hf]
      exact hcount
    | none =>
      simp only [hf, insert_payment]
      have h0 : s.payments.countP (fun p => p.id == pr.payment_id) = 0 :=
        List.countP_eq_zero.mpr (List.find?_eq_none.mp hf)
      rw [List.countP_cons_of_pos _ _ (by simp), h0]

/-- Witness for C2 at concrete inputs: two retries of the sample prepared
send against fresh storage. -/
theorem send_payment_retry_idempotent_w :
    send_payment (send_payment initialStorage samplePrepare 7).1 samplePrepare 9 =
      send_payment initialStorage samplePrepare 7 ∧
    (send_payment initialStorage samplePrepare 7).1.payments.countP
      (fun p => p.id == samplePrepare.payment_id) ≤ 1 :=
  send_payment_retry_idempotent initialStorage samplePrepare 7 9 (by decide)

/-- One storage mutation preserves uniqueness of the active deposit keys. -/
theorem depositKeys_applyOp_nodup (s : StorageState) (op : StorageOp)
    (h : (depositKeys s).Nodup) : (depositKeys (applyOp s op)).Nodup := by
  cases op with
  | addDeposit t v a =>
    show (depositKeys (match add_deposit s t v a with
      | .ok s2 => s2
      | .error _ => s)).Nodup
    unfold add_deposit
    by_cases hex : s.deposits.any (fun d => d.txid == t && d.vout == v) = true
    · rw [if_pos hex]
      exact h
    · rw [if_neg hex]
      show ((t, v) :: depositKeys s).Nodup
      refine List.nodup_cons.mpr ⟨?_, h⟩
      intro hmem
      apply hex
      obtain ⟨d, hd, hkey⟩ := List.mem_map.mp hmem
      refine List.any_eq_true.mpr ⟨d, hd, ?_⟩
      have h1 : d.txid = t := congrArg Prod.fst hkey
      have h2 : d.vout = v := congrArg Prod.snd hkey
      simp [h1, h2]
  | deleteDeposit t v =>
    exact List.Nodup.sublist (List.Sublist.map _ (List.filter_sublist _)) h
  | updateDeposit t v payload =>
    have hkeys : depositKeys (update_deposit s t v payload) = depositKeys s := by
      unfold depositKeys update_deposit
      rw [List.map_map]
      refine List.map_congr_left ?_
      intro d _
      by_cases hm : (d.txid == t && d.vout == v) = true
      · simp only [Function.comp_apply, if_pos hm]
        cases payload <;> rfl
      · simp only [Function.comp_apply, if_neg hm]
    show (depositKeys (update_deposit s t v payload)).Nodup
    rw [hkeys]
    exact h
  | insertPayment p => exact h
  | setCachedItem k v => exact h

/-- Every run of storage mutations preserves uniqueness of deposit keys. -/
theorem depositKeys_applyOps_nodup (ops : List StorageOp) (s : StorageState)
    (h : (depositKeys s).Nodup) : (depositKeys (applyOps s ops)).Nodup := by
  induction ops generalizing s with
  | nil => exact h
  | cons op rest ih => exact ih (applyOp s op) (depositKeys_applyOp_nodup s op h)

/-- C8: in every state reachable from empty storage by storage mutations, no
two active deposit records share a (txid, vout) key, and add_deposit on a key
that already has an active record fails with the constraint-violation
StorageError instead of creating a second record. -/
theorem deposit_key_uniqueness (s : StorageState) (txid : String)
    (vout amount_sats : Nat)
    (hdup : ∃ d ∈ s.deposits, d.txid = txid ∧ d.vout = vout) :
    add_deposit s txid vout amount_sats = .error .constraintViolation ∧
    ∀ ops : List StorageOp, (depositKeys (applyOps initialStorage ops)).Nodup := by
  constructor
  · obtain ⟨d, hd, h1, h2⟩ := hdup
    unfold add_deposit
    have hany : s.deposits.any (fun d => d.txid == txid && d.vout == vout) = true :=
      List.any_eq_true.mpr ⟨d, hd, by simp [h1, h2]⟩
    rw [if_pos hany]
  · intro ops
    exact depositKeys_applyOps_nodup ops initialStorage (by simp [initialStorage, depositKeys])

/-- Witness for C8 at concrete inputs: re-adding the sample deposit's key is
rejected, and deposit keys stay unique along a concrete mutation run. -/
theorem deposit_key_uniqueness_w :
    add_deposit sampleStorage "a1b2" 0 5 = .error .constraintViolation ∧
    ∀ ops : List StorageOp, (depositKeys (applyOps initialStorage ops)).Nodup :=
  deposit_key_uniqueness sampleStorage "a1b2" 0 5
    ⟨sampleDeposit, by simp [sampleStorage], rfl, rfl⟩

/-- Elimination of a successful claim_deposit: there is a found deposit with
no recorded refund, and the result is exactly the claimSuccess pair. -/
theorem claim_deposit_ok_elim {cfg : Config} {s : StorageState}
    {req : ClaimDepositRequest} {required_fee claim_tx_vbytes now : Nat}
    {s1 : StorageState} {p : Payment}
    (h : claim_deposit cfg s req required_fee claim_tx_vbytes now = .ok (s1, p)) :
    ∃ d, s.deposits.find? (fun x => x.txid == req.txid && x.vout == req.vout) =
        some d ∧
      d.refund_tx_id = none ∧
      s1 = (claimSuccess s req d required_fee now).1 ∧
      p = (claimSuccess s req d required_fee now).2 := by
  unfold claim_deposit at h
  cases hf : s.deposits.find? (fun x => x.txid == req.txid && x.vout == req.vout) with
  | none =>
    simp only [hf] at h
    simp at h
  | some d =>
    simp only [hf] at h
    refine ⟨d, rfl, ?_⟩
    by_cases hr : d.refund_tx_id.isSome = true
    · rw [if_pos hr] at h
      simp at h
    · rw [if_neg hr] at h
      have hrn : d.refund_tx_id = none := Option.not_isSome_iff_eq_none.mp hr
      refine ⟨hrn, ?_⟩
      cases hm : effectiveMaxFee cfg req with
      | some ceiling =>
        simp only [hm] at h
        by_cases hlt : ceiling.to_sats claim_tx_vbytes < required_fee
        · rw [if_pos hlt] at h
          simp at h
        · rw [if_neg hlt] at h
          injection h with h2
          exact ⟨congrArg Prod.fst h2.symm, congrArg Prod.snd h2.symm⟩
      | none =>
        simp only [hm] at h
        injection h with h2
        exact ⟨congrArg Prod.fst h2.symm, congrArg Prod.snd h2.symm⟩

/-- C6: with the deposit present and still unclaimed, claim_deposit fails
with FeeTooHigh exactly when the required claim fee exceeds the request's
max_fee if supplied, and otherwise the configured max_deposit_claim_fee if
present (no ceiling is enforced when both are absent). -/
theorem claim_deposit_feeTooHigh_iff (cfg : Config) (s : StorageState)
    (req : ClaimDepositRequest) (required_fee claim_tx_vbytes now : Nat)
    (d : DepositInfo)
    (hfind : s.deposits.find? (fun x => x.txid == req.txid && x.vout == req.vout) =
      some d)
    (href : d.refund_tx_id = none) :
    (claim_deposit cfg s req required_fee claim_tx_vbytes now =
        .error .feeTooHigh ↔
      (match req.max_fee with
       | some f => f.to_sats claim_tx_vbytes < required_fee
       | none =>
         match cfg.max_deposit_claim_fee with
         | some f => f.to_sats claim_tx_vbytes < required_fee
         | none => False)) := by
  unfold claim_deposit
  simp only [hfind]
  have hr : ¬ d.refund_tx_id.isSome = true := by simp [href]
  rw [if_neg hr]
  unfold effectiveMaxFee
  cases hm : req.max_fee with
  | some f =>
    simp only [hm]
    by_cases hlt : f.to_sats claim_tx_vbytes < required_fee
    · simp [hlt]
    · simp [hlt]
  | none =>
    cases hcm : cfg.max_deposit_claim_fee with
    | some f =>
      simp only [hm, hcm]
      by_cases hlt : f.to_sats claim_tx_vbytes < required_fee
      · simp [hlt]
      · simp [hlt]
    | none =>
      simp only [hm, hcm]
      simp

/-- Witness for C6 at concrete inputs: the sample claim at required fee 10
under the request's 50-sat fixed max fee is not FeeTooHigh. -/
theorem claim_deposit_feeTooHigh_iff_w :
    (claim_deposit sampleConfig sampleStorage sampleClaimRequest 10 100 5 =
        .error .feeTooHigh ↔ (Fee.fixed 50).to_sats 100 < 10) :=
  claim_deposit_feeTooHigh_iff sampleConfig sampleStorage sampleClaimRequest
    10 100 5 sampleDeposit rfl rfl

/-- C1: after a successful claim_deposit, list_unclaimed_deposits no longer
lists the claimed (txid, vout) pair, and get_payment_by_id on the returned
Payment's id yields that Payment, complete, with amount equal to the
deposit's amount_sats minus the actual claim fee. -/
theorem claim_deposit_removes_pair (cfg : Config) (s : StorageState)
    (req : ClaimDepositRequest) (required_fee claim_tx_vbytes now : Nat)
    (s1 : StorageState) (p : Payment)
    (h : claim_deposit cfg s req required_fee claim_tx_vbytes now = .ok (s1, p)) :
    (∀ d ∈ list_unclaimed_deposits s1,
      ¬ (d.txid = req.txid ∧ d.vout = req.vout)) ∧
    get_payment_by_id s1 p.id = .ok p ∧
    p.status = .complete ∧
    (∃ d ∈ s.deposits, d.txid = req.txid ∧ d.vout = req.vout ∧
      p.amount = d.amount_sats - required_fee) := by
  obtain ⟨d, hf, hrn, hs1, hp⟩ := claim_deposit_ok_elim h
  subst hs1
  subst hp
  refine ⟨?_, ?_, rfl, ?_⟩
  · intro d2 hd2 hkey
    have hmem := List.mem_filter.mp hd2
    have hfalse := hmem.2
    simp [hkey.1, hkey.2] at hfalse
  · unfold get_payment_by_id
    have hfound : (claimSuccess s req d required_fee now).1.payments.find?
        (fun q => q.id == (claimSuccess s req d required_fee now).2.id) =
          some (claimSuccess s req d required_fee now).2 :=
      List.find?_cons_of_pos _ (by simp [claimSuccess])
    rw [hfound]
  · have hkey := List.find?_some hf
    simp only [Bool.and_eq_true, beq_iff_eq] at hkey
    exact ⟨d, List.mem_of_find?_eq_some hf, hkey.1, hkey.2, rfl⟩

/-- Witness for C1 at concrete inputs: claiming the sample deposit at fee 10
yields the expected storage and Payment, with every conclusion instantiated. -/
theorem claim_deposit_removes_pair_w :
    claim_deposit sampleConfig sampleStorage sampleClaimRequest 10 100 5 =
      .ok (sampleClaimedStorage, sampleClaimedPayment) ∧
    ((∀ d ∈ list_unclaimed_deposits sampleClaimedStorage,
        ¬ (d.txid = sampleClaimRequest.txid ∧ d.vout = sampleClaimRequest.vout)) ∧
      get_payment_by_id sampleClaimedStorage sampleClaimedPayment.id =
        .ok sampleClaimedPayment ∧
      sampleClaimedPayment.status = .complete ∧
      (∃ d ∈ sampleStorage.deposits, d.txid = sampleClaimRequest.txid ∧
        d.vout = sampleClaimRequest.vout ∧
        sampleClaimedPayment.amount = d.amount_sats - 10)) :=
  ⟨rfl,
   claim_deposit_removes_pair sampleConfig sampleStorage sampleClaimRequest
     10 100 5 sampleClaimedStorage sampleClaimedPayment rfl⟩

/-- Updating a deposit maps its stored record through applyPayload and leaves
lookups by the same key pointing at the rewritten record. -/
theorem find?_update_deposit (s : StorageState) (txid : String) (vout : Nat)
    (payload : UpdateDepositPayload) :
    (update_deposit s txid vout payload).deposits.find?
        (fun d => d.txid == txid && d.vout == vout) =
      (s.deposits.find? (fun d => d.txid == txid && d.vout == vout)).map
        (fun d => applyPayload d payload) := by
  have aux : ∀ l : List DepositInfo,
      (l.map (fun d => if d.txid == txid && d.vout == vout then
          applyPayload d payload else d)).find?
          (fun d => d.txid == txid && d.vout == vout) =
        (l.find? (fun d => d.txid == txid && d.vout == vout)).map
          (fun d => applyPayload d payload) := by
    intro l
    induction l with
    | nil => rfl
    | cons d t ih =>
      by_cases hm : (d.txid == txid && d.vout == vout) = true
      · rw [List.map_cons, if_pos hm]
        have hpos : ((applyPayload d payload).txid == txid &&
            (applyPayload d payload).vout == vout) = true := by
          cases payload <;> simpa [applyPayload] using hm
        rw [List.find?_cons_of_pos (p := fun d : DepositInfo => d.txid == txid && d.vout == vout) _ hpos,
          List.find?_cons_of_pos (p := fun d : DepositInfo => d.txid == txid && d.vout == vout) _ hm]
        rfl
      · rw [List.map_cons, if_neg hm]
        rw [List.find?_cons_of_neg (p := fun d : DepositInfo => d.txid == txid && d.vout == vout) _ hm,
          List.find?_cons_of_neg (p := fun d : DepositInfo => d.txid == txid && d.vout == vout) _ hm]
        exact ih
  exact aux s.deposits

/-- C9: claim_deposit and refund_deposit on the same (txid, vout) pair are
mutually exclusive under the per-deposit-key lock the spec mandates: in
either serialization of the two calls, the one that runs second fails, so
the two never both succeed and at most one terminal outcome is observed. -/
theorem claim_refund_mutual_exclusion (cfg : Config) (s : StorageState)
    (req : ClaimDepositRequest) (required_fee claim_tx_vbytes now : Nat)
    (destination_address : String) (rfee : Fee) (tx_hex tx_id : String) :
    (∀ s1 p, claim_deposit cfg s req required_fee claim_tx_vbytes now = .ok (s1, p) →
      refund_deposit s1 req.txid req.vout destination_address rfee tx_hex tx_id =
        .error .depositNotFound) ∧
    (∀ s1 r, refund_deposit s req.txid req.vout destination_address rfee tx_hex tx_id =
        .ok (s1, r) →
      claim_deposit cfg s1 req required_fee claim_tx_vbytes now =
        .error .depositAlreadyRefunded) := by
  constructor
  · intro s1 p h
    obtain ⟨d, hf, hrn, hs1, hp⟩ := claim_deposit_ok_elim h
    subst hs1
    unfold refund_deposit
    have hnone : (claimSuccess s req d required_fee now).1.deposits.find?
        (fun x => x.txid == req.txid && x.vout == req.vout) = none := by
      refine List.find?_eq_none.mpr ?_
      intro x hx
      have hxf := (List.mem_filter.mp hx).2
      simp only [Bool.not_eq_eq_eq_not, Bool.not_true] at hxf
      simp [hxf]
    rw [hnone]
  · intro s1 r h
    unfold refund_deposit at h
    cases hf : s.deposits.find? (fun x => x.txid == req.txid && x.vout == req.vout) with
    | none =>
      simp only [hf] at h
      simp at h
    | some d =>
      simp only [hf] at h
      cases htx : d.refund_tx with
      | some recordedHex =>
        cases hti : d.refund_tx_id with
        | some recordedId =>
          simp only [htx, hti] at h
          injection h with h2
          have hs1 : s1 = s := (congrArg Prod.fst h2).symm
          subst hs1
          unfold claim_deposit
          simp only [hf]
          rw [if_pos (by simp [hti])]
        | none =>
          simp only [htx, hti] at h
          injection h with h2
          have hs1 : s1 = update_deposit s req.txid req.vout (.refund tx_hex tx_id) :=
            (congrArg Prod.fst h2).symm
          subst hs1
          unfold claim_deposit
          rw [find?_update_deposit, hf]
          simp only [Option.map_some']
          rw [if_pos (by rfl)]
      | none =>
        simp only [htx] at h
        injection h with h2
        have hs1 : s1 = update_deposit s req.txid req.vout (.refund tx_hex tx_id) :=
          (congrArg Prod.fst h2).symm
        subst hs1
        unfold claim_deposit
        rw [find?_update_deposit, hf]
        simp only [Option.map_some']
        rw [if_pos (by rfl)]

/-- Witness for C9 at concrete inputs: refunding the sample deposit succeeds
and the subsequent claim on the same pair fails. -/
theorem claim_refund_mutual_exclusion_w :
    refund_deposit sampleStorage "a1b2" 0 "destaddr" (Fee.fixed 5) "rawhex" "rtxid" =
      .ok (refundedSampleStorage, { tx_id := "rtxid", tx_hex := "rawhex" }) ∧
    claim_deposit sampleConfig refundedSampleStorage sampleClaimRequest 10 100 5 =
      .error .depositAlreadyRefunded :=
  ⟨rfl,
   (claim_refund_mutual_exclusion sampleConfig sampleStorage sampleClaimRequest
      10 100 5 "destaddr" (Fee.fixed 5) "rawhex" "rtxid").2 refundedSampleStorage
     { tx_id := "rtxid", tx_hex := "rawhex" } rfl⟩

/-- C7: on an unmodified payment set, the first two 10-element pages of
list_payments concatenate to the first 20 elements of the single stable
timestamp-descending ordering (contiguous, no gap and no overlap in
position), and when the stored payments are distinct records the two pages
are disjoint. -/
theorem list_payments_pagination (s : StorageState) (hnd : s.payments.Nodup) :
    list_payments s (some 0) (some 10) ++ list_payments s (some 10) (some 10) =
      (sortedPayments s).take 20 ∧
    (sortedPayments s).Pairwise (fun a b => b.timestamp ≤ a.timestamp) ∧
    (list_payments s (some 0) (some 10)).Disjoint
      (list_payments s (some 10) (some 10)) := by
  have hpage0 : list_payments s (some 0) (some 10) = (sortedPayments s).take 10 := by
    unfold list_payments
    rw [Option.getD_some, Option.getD_some, List.drop_zero]
  have hpage1 : list_payments s (some 10) (some 10) =
      ((sortedPayments s).drop 10).take 10 := by
    unfold list_payments
    rw [Option.getD_some, Option.getD_some]
  refine ⟨?_, ?_, ?_⟩
  · rw [hpage0, hpage1, show (20 : Nat) = 10 + 10 by norm_num, List.take_add]
  · have htr : ∀ a b c : Payment, paymentLe a b = true → paymentLe b c = true →
        paymentLe a c = true := by
      intro a b c hab hbc
      simp only [paymentLe, decide_eq_true_eq] at hab hbc ⊢
      omega
    have hto : ∀ a b : Payment, (paymentLe a b || paymentLe b a) = true := by
      intro a b
      simp only [paymentLe, Bool.or_eq_true, decide_eq_true_eq]
      omega
    have hs := List.sorted_mergeSort htr hto s.payments
    exact hs.imp (fun h => by simpa [paymentLe] using h)
  · have hsorted : (sortedPayments s).Nodup :=
      (List.mergeSort_perm s.payments paymentLe).symm.nodup hnd
    have hdisj : ((sortedPayments s).take 10).Disjoint ((sortedPayments s).drop 10) :=
      List.disjoint_of_nodup_append
        (by rw [List.take_append_drop]; exact hsorted)
    intro a ha hb
    rw [hpage0] at ha
    rw [hpage1] at hb
    exact hdisj ha (List.take_subset _ _ hb)

/-- Witness for C7 at concrete inputs: the three distinct sample payments. -/
theorem list_payments_pagination_w :
    list_payments samplePaymentsStorage (some 0) (some 10) ++
        list_payments samplePaymentsStorage (some 10) (some 10) =
      (sortedPayments samplePaymentsStorage).take 20 ∧
    (sortedPayments samplePaymentsStorage).Pairwise
      (fun a b => b.timestamp ≤ a.timestamp) ∧
    (list_payments samplePaymentsStorage (some 0) (some 10)).Disjoint
      (list_payments samplePaymentsStorage (some 10) (some 10)) :=
  list_payments_pagination samplePaymentsStorage (by decide)

end BreezSdkSpark
